import Mathlib

/-!
Verification of the filtering-and-aggregation engine of the Canonical Sales
Dashboard (`Canonical.py`).

A deal record is one row of the loaded CSV table.  Categorical columns are
strings, monetary and score columns are rationals, and the optionally-absent
columns (`Time_to_Close_Days`, `Customer_Satisfaction_Score`,
`Engagement_Score`) are `Option ℚ`, with `none` playing the role of a missing
cell (pandas `NaN`).  A dataframe is a list of rows; pandas boolean-mask
filtering is `List.filter`, which keeps the original row order.
-/

namespace Canonical

structure Row where
  Sales_Quarter : String
  Region : String
  Deal_Stage : String
  Deal_Value_USD : ℚ
  Product_Category : String
  Lead_Source : String
  Salesperson_ID : String
  Time_to_Close_Days : Option ℚ
  Customer_Satisfaction_Score : Option ℚ
  Engagement_Score : Option ℚ
deriving DecidableEq

/-- `data_filtered` (Canonical.py lines 32-35): keep the rows whose
`Sales_Quarter` is one of the selected quarters and whose `Region` is one of
the selected regions (`Series.isin` against each multiselect value list). -/
def data_filtered (data : List Row) (selected_quarters selected_regions : List String) :
    List Row :=
  data.filter (fun r =>
    selected_quarters.contains r.Sales_Quarter && selected_regions.contains r.Region)

/-- `region_filtered_data` (line 75): the deal-stage multiselect applied on top
of `data_filtered`. -/
def region_filtered_data (data : List Row)
    (selected_quarters selected_regions selected_deal_stages : List String) : List Row :=
  (data_filtered data selected_quarters selected_regions).filter
    (fun r => selected_deal_stages.contains r.Deal_Stage)

/-- `total_pipeline_value` (line 44): sum of `Deal_Value_USD` over the rows
whose `Deal_Stage` is not in `['Closed-Won', 'Closed-Lost']`. -/
def total_pipeline_value (v : List Row) : ℚ :=
  ((v.filter (fun r => !(["Closed-Won", "Closed-Lost"].contains r.Deal_Stage))).map
    Row.Deal_Value_USD).sum

/-- `total_closed_won` (line 45). -/
def total_closed_won (v : List Row) : ℚ :=
  ((v.filter (fun r => r.Deal_Stage == "Closed-Won")).map Row.Deal_Value_USD).sum

/-- `total_closed_lost` (line 46). -/
def total_closed_lost (v : List Row) : ℚ :=
  ((v.filter (fun r => r.Deal_Stage == "Closed-Lost")).map Row.Deal_Value_USD).sum

/-- `closed_won` (line 47): the number of `Closed-Won` rows of the view. -/
def closed_won (v : List Row) : Nat :=
  (v.filter (fun r => r.Deal_Stage == "Closed-Won")).length

/-- `total_deals` (line 48): the number of rows of the view. -/
def total_deals (v : List Row) : Nat :=
  v.length

/-- `win_rate` (line 49): `(closed_won / total_deals) * 100 if total_deals > 0
else 0`. -/
def win_rate (v : List Row) : ℚ :=
  if total_deals v > 0 then ((closed_won v : ℚ) / (total_deals v : ℚ)) * 100 else 0

/-- pandas `Series.mean()` with the default `skipna=True`: the mean of the
present values of an optional column, `none` (pandas `NaN`, rendered "N/A" at
lines 64-66) when no value is present. -/
def colMean (f : Row → Option ℚ) (v : List Row) : Option ℚ :=
  let vals := v.filterMap f
  if vals = [] then none else some (vals.sum / (vals.length : ℚ))

/-- `avg_time_to_close` (line 50). -/
def avg_time_to_close (v : List Row) : Option ℚ :=
  colMean Row.Time_to_Close_Days v

/-- `avg_csat` (line 51). -/
def avg_csat (v : List Row) : Option ℚ :=
  colMean Row.Customer_Satisfaction_Score v

/-- `avg_engagement` (line 52). -/
def avg_engagement (v : List Row) : Option ℚ :=
  colMean Row.Engagement_Score v

/-- Sum of `Deal_Value_USD` over a whole view. -/
def dealValueTotal (v : List Row) : ℚ :=
  (v.map Row.Deal_Value_USD).sum

/-!
### Grouped aggregation

pandas `groupby(keys)[col].sum()` produces one output row per distinct key.
`dedupKeys` lists the distinct keys; we emit them in order of first occurrence
whereas pandas (default `sort=True`) emits them sorted by key.  No property
proved below depends on the order in which groups are emitted: the sum
roll-ups are order-invariant, and the leaderboard is characterised against
the documented contract of the sort step, which pins no order among groups
with equal sums.
-/

def dedupAux {κ : Type} [DecidableEq κ] : List κ → List κ → List κ
  | _, [] => []
  | seen, k :: ks => if k ∈ seen then dedupAux seen ks else k :: dedupAux (k :: seen) ks

def dedupKeys {κ : Type} [DecidableEq κ] (l : List κ) : List κ :=
  dedupAux [] l

/-- The distinct values of `key` over a view, one per output group. -/
def groupKeys {κ : Type} [DecidableEq κ] (key : Row → κ) (v : List Row) : List κ :=
  dedupKeys (v.map key)

/-- The rows of the group of key `k`. -/
def groupRows {κ : Type} [DecidableEq κ] (key : Row → κ) (v : List Row) (k : κ) :
    List Row :=
  v.filter (fun r => decide (key r = k))

/-- `groupby(key)['Deal_Value_USD'].sum().reset_index()`: one `(key, sum)` row
per group. -/
def groupbySum {κ : Type} [DecidableEq κ] (key : Row → κ) (v : List Row) :
    List (κ × ℚ) :=
  (groupKeys key v).map (fun k => (k, dealValueTotal (groupRows key v k)))

/-- `groupby(key)['Deal_Value_USD'].mean().reset_index()`: one `(key, mean)`
row per group (every emitted group is non-empty, so the mean is sum/count). -/
def groupbyMean {κ : Type} [DecidableEq κ] (key : Row → κ) (v : List Row) :
    List (κ × ℚ) :=
  (groupKeys key v).map (fun k =>
    (k, dealValueTotal (groupRows key v k) / ((groupRows key v k).length : ℚ)))

/-- The `Closed-Won` restriction shared by the leaderboard (line 103) and the
category pie chart (line 116). -/
def closedWonRows (v : List Row) : List Row :=
  v.filter (fun r => r.Deal_Stage == "Closed-Won")

/-- Leaderboard group key (line 104): `['Salesperson_ID', 'Region']`. -/
def lbKey (r : Row) : String × String :=
  (r.Salesperson_ID, r.Region)

/-- The `agg` step of the leaderboard (lines 103-107): per
`(Salesperson_ID, Region)` group of the `Closed-Won` rows, the pair
`(Total_Closed_Won, Average_Deal_Value)` = (sum, mean) of `Deal_Value_USD`. -/
def lbGroups (v : List Row) : List ((String × String) × ℚ × ℚ) :=
  (groupKeys lbKey (closedWonRows v)).map (fun k =>
    (k, dealValueTotal (groupRows lbKey (closedWonRows v) k),
      dealValueTotal (groupRows lbKey (closedWonRows v) k) /
        ((groupRows lbKey (closedWonRows v) k).length : ℚ)))

/-- The guarantee pandas documents for `sort_values(by=c, ascending=False)`
with its default quicksort kind (line 108): the output is a permutation of
the input that is non-increasing in `c`.  The relative order of rows with
equal sort keys is left unspecified — pandas documents only the mergesort
kind as stable — so any compliant permutation may be returned. -/
def IsSortValuesDescOutput {α : Type} (f : α → ℚ) (l out : List α) : Prop :=
  l.Perm out ∧ out.Pairwise (fun a b => f b ≤ f a)

/-- One concrete descending insertion sort, used below only to realise the
dashboard pipeline as an executable function producing one
`IsSortValuesDescOutput`-compliant order; the properties of the sort step
itself are stated against `IsSortValuesDescOutput`, not against this
realisation. -/
def insertDescBy {α : Type} (f : α → ℚ) (x : α) : List α → List α
  | [] => [x]
  | y :: ys => if f y ≤ f x then x :: y :: ys else y :: insertDescBy f x ys

def sortDescBy {α : Type} (f : α → ℚ) (l : List α) : List α :=
  l.foldr (insertDescBy f) []

/-- `leaderboard` (lines 103-109): group, sort descending by
`Total_Closed_Won` (one contract-compliant order), take the first 10 rows. -/
def leaderboard (v : List Row) : List ((String × String) × ℚ × ℚ) :=
  (sortDescBy (fun g => g.2.1) (lbGroups v)).take 10

/-- `region_category_revenue` (line 78). -/
def region_category_revenue (data : List Row)
    (selected_quarters selected_regions selected_deal_stages : List String) :
    List ((String × String) × ℚ) :=
  groupbySum (fun r => (r.Region, r.Product_Category))
    (region_filtered_data data selected_quarters selected_regions selected_deal_stages)

/-- `category_revenue` (lines 116-117): `Closed-Won` rows grouped by
`Product_Category`, summing `Deal_Value_USD`. -/
def category_revenue (v : List Row) : List (String × ℚ) :=
  groupbySum Row.Product_Category (closedWonRows v)

/-- `category_avg_deal` (line 128): the whole filtered view grouped by
`Product_Category`, averaging `Deal_Value_USD`. -/
def category_avg_deal (v : List Row) : List (String × ℚ) :=
  groupbyMean Row.Product_Category v

/-- `lead_source_data` (line 140). -/
def lead_source_data (v : List Row) : List ((String × String) × ℚ) :=
  groupbySum (fun r => (r.Lead_Source, r.Deal_Stage)) v

/-!
### One whole recomputation pass

`runDashboard` bundles everything one rerun of the script computes from the
loaded data and the three multiselect states, so that runs with different
selections can be compared.
-/

structure KeyMetrics where
  total_pipeline_value : ℚ
  total_closed_won : ℚ
  total_closed_lost : ℚ
  win_rate : ℚ
  avg_time_to_close : Option ℚ
  avg_csat : Option ℚ
  avg_engagement : Option ℚ
deriving DecidableEq

structure DashboardOutputs where
  data_filtered : List Row
  metrics : KeyMetrics
  region_filtered_data : List Row
  region_category_revenue : List ((String × String) × ℚ)
  leaderboard : List ((String × String) × ℚ × ℚ)
  category_revenue : List (String × ℚ)
  category_avg_deal : List (String × ℚ)
  lead_source_data : List ((String × String) × ℚ)
deriving DecidableEq

def compute_metrics (v : List Row) : KeyMetrics :=
  { total_pipeline_value := total_pipeline_value v
    total_closed_won := total_closed_won v
    total_closed_lost := total_closed_lost v
    win_rate := win_rate v
    avg_time_to_close := avg_time_to_close v
    avg_csat := avg_csat v
    avg_engagement := avg_engagement v }

def runDashboard (data : List Row)
    (selected_quarters selected_regions selected_deal_stages : List String) :
    DashboardOutputs :=
  let v := data_filtered data selected_quarters selected_regions
  { data_filtered := v
    metrics := compute_metrics v
    region_filtered_data :=
      region_filtered_data data selected_quarters selected_regions selected_deal_stages
    region_category_revenue :=
      region_category_revenue data selected_quarters selected_regions selected_deal_stages
    leaderboard := leaderboard v
    category_revenue := category_revenue v
    category_avg_deal := category_avg_deal v
    lead_source_data := lead_source_data v }

/-!
### Session model

A session holds the loaded dataset and the current widget selections.  Each
user interaction either changes a selection (after which the script reruns) or
reads one of the rendered artefacts.  Every step recomputes derived views with
the pure functions above; nothing ever writes to `data`.
-/

inductive Op
  | selectFilters (selected_quarters selected_regions selected_deal_stages : List String)
  | viewFilteredTable
  | viewMetrics
  | viewRegionalChart
  | viewLeaderboard
  | viewCategoryCharts
  | viewLeadSourceChart

inductive Artefact
  | table (rows : List Row)
  | metrics (m : KeyMetrics)
  | rollup2 (t : List ((String × String) × ℚ))
  | lbTable (t : List ((String × String) × ℚ × ℚ))
  | rollup1 (t : List (String × ℚ))

structure DashState where
  data : List Row
  selected_quarters : List String
  selected_regions : List String
  selected_deal_stages : List String

def DashState.view (s : DashState) : List Row :=
  data_filtered s.data s.selected_quarters s.selected_regions

def applyOp (s : DashState) : Op → DashState × List Artefact
  | .selectFilters qs rs ss =>
      ({ s with selected_quarters := qs, selected_regions := rs,
                selected_deal_stages := ss }, [])
  | .viewFilteredTable => (s, [.table s.view])
  | .viewMetrics => (s, [.metrics (compute_metrics s.view)])
  | .viewRegionalChart =>
      (s, [.rollup2 (region_category_revenue s.data s.selected_quarters
            s.selected_regions s.selected_deal_stages)])
  | .viewLeaderboard => (s, [.lbTable (leaderboard s.view)])
  | .viewCategoryCharts =>
      (s, [.rollup1 (category_revenue s.view), .rollup1 (category_avg_deal s.view)])
  | .viewLeadSourceChart => (s, [.rollup2 (lead_source_data s.view)])

def runOps (s : DashState) : List Op → DashState × List Artefact
  | [] => (s, [])
  | op :: ops =>
      ((runOps (applyOp s op).1 ops).1,
        (applyOp s op).2 ++ (runOps (applyOp s op).1 ops).2)

/-!
### Concrete sample data

The three-row example of spec §8: an EU `Closed-Won` deal of 100, an EU
`Negotiation` deal of 50, a US `Closed-Lost` deal of 30.
-/

def wonRow : Row :=
  { Sales_Quarter := "Q1-FY25", Region := "EU", Deal_Stage := "Closed-Won"
    Deal_Value_USD := 100, Product_Category := "Ubuntu OS", Lead_Source := "Webinar"
    Salesperson_ID := "S1", Time_to_Close_Days := some 30
    Customer_Satisfaction_Score := some 4, Engagement_Score := some 7 }

def openRow : Row :=
  { Sales_Quarter := "Q1-FY25", Region := "EU", Deal_Stage := "Negotiation"
    Deal_Value_USD := 50, Product_Category := "Public Cloud", Lead_Source := "Referral"
    Salesperson_ID := "S2", Time_to_Close_Days := none
    Customer_Satisfaction_Score := none, Engagement_Score := none }

def lostRow : Row :=
  { Sales_Quarter := "Q2-FY25", Region := "US", Deal_Stage := "Closed-Lost"
    Deal_Value_USD := 30, Product_Category := "Kubernetes", Lead_Source := "Webinar"
    Salesperson_ID := "S1", Time_to_Close_Days := some 12
    Customer_Satisfaction_Score := some 2, Engagement_Score := none }

def sampleData : List Row :=
  [wonRow, openRow, lostRow]

/-- Two `Closed-Won` deals of equal value by different salespeople: their
leaderboard groups have equal `Total_Closed_Won` sums. -/
def tieRowA : Row :=
  { Sales_Quarter := "Q1-FY25", Region := "EU", Deal_Stage := "Closed-Won"
    Deal_Value_USD := 100, Product_Category := "Ubuntu OS", Lead_Source := "Webinar"
    Salesperson_ID := "S2", Time_to_Close_Days := some 20
    Customer_Satisfaction_Score := some 5, Engagement_Score := some 6 }

def tieRowB : Row :=
  { Sales_Quarter := "Q1-FY25", Region := "EU", Deal_Stage := "Closed-Won"
    Deal_Value_USD := 100, Product_Category := "Public Cloud", Lead_Source := "Referral"
    Salesperson_ID := "S1", Time_to_Close_Days := some 25
    Customer_Satisfaction_Score := some 3, Engagement_Score := some 8 }

def tieData : List Row :=
  [tieRowA, tieRowB]

/-! ### Helper lemmas -/

theorem mem_dedupAux {κ : Type} [DecidableEq κ] (x : κ) :
    ∀ (l seen : List κ), x ∈ dedupAux seen l ↔ x ∈ l ∧ x ∉ seen := by
  intro l
  induction l with
  | nil => intro seen; simp [dedupAux]
  | cons k ks ih =>
    intro seen
    by_cases hk : k ∈ seen
    · rw [show dedupAux seen (k :: ks) = dedupAux seen ks from by simp [dedupAux, hk]]
      rw [ih seen]
      constructor
      · rintro ⟨hx, hns⟩; exact ⟨List.mem_cons_of_mem _ hx, hns⟩
      · rintro ⟨hx, hns⟩
        rcases List.mem_cons.mp hx with rfl | hx
        · exact absurd hk hns
        · exact ⟨hx, hns⟩
    · rw [show dedupAux seen (k :: ks) = k :: dedupAux (k :: seen) ks from by
        simp [dedupAux, hk]]
      rw [List.mem_cons, ih (k :: seen)]
      constructor
      · rintro (rfl | ⟨hx, hns⟩)
        · exact ⟨List.mem_cons_self _ _, hk⟩
        · exact ⟨List.mem_cons_of_mem _ hx, fun hc => hns (List.mem_cons_of_mem _ hc)⟩
      · rintro ⟨hx, hns⟩
        by_cases hxk : x = k
        · exact Or.inl hxk
        · have hxks : x ∈ ks := by
            rcases List.mem_cons.mp hx with h | h
            · exact absurd h hxk
            · exact h
          refine Or.inr ⟨hxks, fun hc => ?_⟩
          rcases List.mem_cons.mp hc with h | h
          · exact hxk h
          · exact hns h

theorem nodup_dedupAux {κ : Type} [DecidableEq κ] :
    ∀ (l seen : List κ), (dedupAux seen l).Nodup := by
  intro l
  induction l with
  | nil => intro seen; simp [dedupAux]
  | cons k ks ih =>
    intro seen
    by_cases hk : k ∈ seen
    · rw [show dedupAux seen (k :: ks) = dedupAux seen ks from by simp [dedupAux, hk]]
      exact ih seen
    · rw [show dedupAux seen (k :: ks) = k :: dedupAux (k :: seen) ks from by
        simp [dedupAux, hk]]
      refine List.nodup_cons.mpr ⟨fun hc => ?_, ih (k :: seen)⟩
      exact ((mem_dedupAux k ks (k :: seen)).mp hc).2 (List.mem_cons_self _ _)

theorem mem_dedupKeys {κ : Type} [DecidableEq κ] (x : κ) (l : List κ) :
    x ∈ dedupKeys l ↔ x ∈ l := by
  rw [dedupKeys, mem_dedupAux]
  simp

theorem nodup_dedupKeys {κ : Type} [DecidableEq κ] (l : List κ) :
    (dedupKeys l).Nodup :=
  nodup_dedupAux l []

theorem sum_map_filter_not {α : Type} (p : α → Bool) (val : α → ℚ) (l : List α) :
    ((l.filter p).map val).sum + ((l.filter (fun a => !p a)).map val).sum
      = (l.map val).sum := by
  induction l with
  | nil => simp
  | cons a l ih =>
    by_cases h : p a <;> simp [List.filter_cons, h, ← ih] <;> ring

theorem sum_groups {κ : Type} [DecidableEq κ] (key : Row → κ) :
    ∀ (ks : List κ), ks.Nodup → ∀ (v : List Row), (∀ r ∈ v, key r ∈ ks) →
      ((ks.map (fun k => dealValueTotal (groupRows key v k))).sum = dealValueTotal v) := by
  intro ks
  induction ks with
  | nil =>
    intro _ v hv
    cases v with
    | nil => simp [dealValueTotal]
    | cons r v => exact absurd (hv r (List.mem_cons_self _ _)) (List.not_mem_nil _)
  | cons k ks ih =>
    intro hnd v hv
    have hknotin : k ∉ ks := (List.nodup_cons.mp hnd).1
    have hndt : ks.Nodup := (List.nodup_cons.mp hnd).2
    set v' := v.filter (fun r => !(decide (key r = k))) with hv'
    have hgroups : ∀ k' ∈ ks, groupRows key v k' = groupRows key v' k' := by
      intro k' hk'
      have hne : k' ≠ k := fun h => hknotin (h ▸ hk')
      rw [hv', groupRows, groupRows, List.filter_filter]
      apply List.filter_congr
      intro r _
      by_cases h : key r = k'
      · have hkk : key r ≠ k := fun hc => hne (h.symm.trans hc)
        simp [h, hkk, hne]
      · simp [h]
    have hmap : (ks.map (fun k' => dealValueTotal (groupRows key v k')))
        = ks.map (fun k' => dealValueTotal (groupRows key v' k')) := by
      apply List.map_congr_left
      intro k' hk'
      rw [hgroups k' hk']
    have hv'cov : ∀ r ∈ v', key r ∈ ks := by
      intro r hr
      have hrv := List.mem_filter.mp hr
      have hne : key r ≠ k := by simpa using hrv.2
      rcases List.mem_cons.mp (hv r hrv.1) with h | h
      · exact absurd h hne
      · exact h
    have hsplit := sum_map_filter_not (fun r => decide (key r = k)) Row.Deal_Value_USD v
    calc ((k :: ks).map (fun k' => dealValueTotal (groupRows key v k'))).sum
        = dealValueTotal (groupRows key v k)
            + (ks.map (fun k' => dealValueTotal (groupRows key v' k'))).sum := by
          rw [List.map_cons, List.sum_cons, hmap]
      _ = dealValueTotal (groupRows key v k) + dealValueTotal v' := by
          rw [ih hndt v' hv'cov]
      _ = dealValueTotal v := by
          rw [dealValueTotal, dealValueTotal, dealValueTotal, groupRows]
          exact hsplit

theorem mem_insertDescBy {α : Type} (f : α → ℚ) (x z : α) :
    ∀ l : List α, z ∈ insertDescBy f x l ↔ z = x ∨ z ∈ l := by
  intro l
  induction l with
  | nil => simp [insertDescBy]
  | cons y ys ih =>
    by_cases h : f y ≤ f x
    · simp [insertDescBy, h]
    · rw [show insertDescBy f x (y :: ys) = y :: insertDescBy f x ys from by
        simp [insertDescBy, h]]
      rw [List.mem_cons, ih, List.mem_cons]
      tauto

theorem pairwise_insertDescBy {α : Type} (f : α → ℚ) (x : α) :
    ∀ l : List α, l.Pairwise (fun a b => f b ≤ f a) →
      (insertDescBy f x l).Pairwise (fun a b => f b ≤ f a) := by
  intro l
  induction l with
  | nil => intro _; simp [insertDescBy]
  | cons y ys ih =>
    intro hp
    rcases List.pairwise_cons.mp hp with ⟨hy, hys⟩
    by_cases h : f y ≤ f x
    · rw [show insertDescBy f x (y :: ys) = x :: y :: ys from by simp [insertDescBy, h]]
      refine List.pairwise_cons.mpr ⟨?_, hp⟩
      intro z hz
      rcases List.mem_cons.mp hz with rfl | hz
      · exact h
      · exact le_trans (hy z hz) h
    · rw [show insertDescBy f x (y :: ys) = y :: insertDescBy f x ys from by
        simp [insertDescBy, h]]
      refine List.pairwise_cons.mpr ⟨?_, ih hys⟩
      intro z hz
      rcases (mem_insertDescBy f x z ys).mp hz with rfl | hz
      · exact le_of_lt (lt_of_not_le h)
      · exact hy z hz

theorem pairwise_sortDescBy {α : Type} (f : α → ℚ) (l : List α) :
    (sortDescBy f l).Pairwise (fun a b => f b ≤ f a) := by
  induction l with
  | nil => simp [sortDescBy]
  | cons a l ih => exact pairwise_insertDescBy f a _ ih

theorem perm_insertDescBy {α : Type} (f : α → ℚ) (x : α) :
    ∀ l : List α, (insertDescBy f x l).Perm (x :: l) := by
  intro l
  induction l with
  | nil => exact List.Perm.refl _
  | cons y ys ih =>
    by_cases h : f y ≤ f x
    · rw [show insertDescBy f x (y :: ys) = x :: y :: ys from by simp [insertDescBy, h]]
    · rw [show insertDescBy f x (y :: ys) = y :: insertDescBy f x ys from by
        simp [insertDescBy, h]]
      exact (ih.cons y).trans (List.Perm.swap x y ys)

theorem sortDescBy_perm {α : Type} (f : α → ℚ) (l : List α) :
    (sortDescBy f l).Perm l := by
  induction l with
  | nil => exact List.Perm.refl _
  | cons a l ih => exact (perm_insertDescBy f a (sortDescBy f l)).trans (ih.cons a)

theorem sortDescBy_compliant {α : Type} (f : α → ℚ) (l : List α) :
    IsSortValuesDescOutput f l (sortDescBy f l) :=
  ⟨(sortDescBy_perm f l).symm, pairwise_sortDescBy f l⟩

theorem filterMap_eq_filter_map {α β : Type} (g : α → Option β) (d : β) :
    ∀ l : List α, l.filterMap g
      = (l.filter (fun a => (g a).isSome)).map (fun a => (g a).getD d) := by
  intro l
  induction l with
  | nil => simp
  | cons a l ih =>
    cases h : g a <;> simp [List.filterMap_cons, List.filter_cons, h, ih]

/-! ### Claim theorems -/

/-- C1: the filter returns exactly the rows whose `Sales_Quarter` is among the
selected quarters, whose `Region` is among the selected regions and — when the
deal-stage selection is applied — whose `Deal_Stage` is among the selected
stages, in the original row order (the result is a sublist of the data); an
empty selection list yields an empty view, and selection values not present in
the data match nothing (the filter is a total function, so no error can
arise). -/
theorem filter_characterization (data : List Row) (qs rs ss : List String) :
    region_filtered_data data qs rs ss
      = data.filter (fun r =>
          decide (r.Sales_Quarter ∈ qs ∧ r.Region ∈ rs ∧ r.Deal_Stage ∈ ss))
    ∧ data_filtered data qs rs
      = data.filter (fun r => decide (r.Sales_Quarter ∈ qs ∧ r.Region ∈ rs))
    ∧ (data_filtered data qs rs).Sublist data
    ∧ (region_filtered_data data qs rs ss).Sublist data
    ∧ (qs = [] → data_filtered data qs rs = [])
    ∧ (rs = [] → data_filtered data qs rs = [])
    ∧ (ss = [] → region_filtered_data data qs rs ss = [])
    ∧ ((∀ r ∈ data, r.Sales_Quarter ∉ qs) → data_filtered data qs rs = []) := by
  have hdf : data_filtered data qs rs
      = data.filter (fun r => decide (r.Sales_Quarter ∈ qs ∧ r.Region ∈ rs)) := by
    unfold data_filtered
    apply List.filter_congr
    intro r _
    simp [List.elem_iff]
  have hrf : region_filtered_data data qs rs ss
      = data.filter (fun r =>
          decide (r.Sales_Quarter ∈ qs ∧ r.Region ∈ rs ∧ r.Deal_Stage ∈ ss)) := by
    unfold region_filtered_data
    rw [hdf, List.filter_filter]
    apply List.filter_congr
    intro r _
    simp [List.elem_iff, Bool.and_comm, Bool.and_assoc, Bool.and_left_comm]
  refine ⟨hrf, hdf, ?_, ?_, ?_, ?_, ?_, ?_⟩
  · rw [hdf]; exact List.filter_sublist data
  · rw [hrf]; exact List.filter_sublist data
  · rintro rfl; rw [hdf]; simp
  · rintro rfl; rw [hdf]; simp
  · rintro rfl; rw [hrf]; simp
  · intro h
    rw [hdf, List.filter_eq_nil_iff]
    intro r hr
    simp [h r hr]

theorem filter_characterization_witness :
    (∀ r ∈ sampleData, r.Sales_Quarter ∉ (["QX"] : List String))
    ∧ data_filtered sampleData ["QX"] ["EU"] = [] :=
  ⟨by decide,
   (filter_characterization sampleData ["QX"] ["EU"] []).2.2.2.2.2.2.2 (by decide)⟩

/-- C2: `total_pipeline_value` is the sum of `Deal_Value_USD` over the rows
whose `Deal_Stage` is neither `Closed-Won` nor `Closed-Lost`,
`total_closed_won` the sum over the `Closed-Won` rows, and
`total_closed_lost` the sum over the `Closed-Lost` rows. -/
theorem metric_sums_match_spec (v : List Row) :
    total_pipeline_value v
      = ((v.filter (fun r =>
          decide (r.Deal_Stage ≠ "Closed-Won" ∧ r.Deal_Stage ≠ "Closed-Lost"))).map
            Row.Deal_Value_USD).sum
    ∧ total_closed_won v
      = ((v.filter (fun r => decide (r.Deal_Stage = "Closed-Won"))).map
          Row.Deal_Value_USD).sum
    ∧ total_closed_lost v
      = ((v.filter (fun r => decide (r.Deal_Stage = "Closed-Lost"))).map
          Row.Deal_Value_USD).sum := by
  refine ⟨?_, ?_, ?_⟩
  · rw [total_pipeline_value]
    have h : v.filter (fun r => !(["Closed-Won", "Closed-Lost"].contains r.Deal_Stage))
        = v.filter (fun r =>
            decide (r.Deal_Stage ≠ "Closed-Won" ∧ r.Deal_Stage ≠ "Closed-Lost")) := by
      apply List.filter_congr
      intro r _
      by_cases h1 : r.Deal_Stage = "Closed-Won" <;>
        by_cases h2 : r.Deal_Stage = "Closed-Lost" <;> simp [h1, h2, List.elem_iff]
    rw [h]
  · rfl
  · rfl

/-- C7: filtering an already-filtered view again with supersets of the
original selections returns that view unchanged, both for the
quarter/region filter and for the stage-extended filter. -/
theorem filter_idempotent (data : List Row) (qs1 rs1 ss1 qs2 rs2 ss2 : List String)
    (hq : qs1 ⊆ qs2) (hr : rs1 ⊆ rs2) (hs : ss1 ⊆ ss2) :
    data_filtered (data_filtered data qs1 rs1) qs2 rs2 = data_filtered data qs1 rs1
    ∧ region_filtered_data (region_filtered_data data qs1 rs1 ss1) qs2 rs2 ss2
        = region_filtered_data data qs1 rs1 ss1 := by
  have hmem : ∀ r ∈ data_filtered data qs1 rs1,
      r.Sales_Quarter ∈ qs1 ∧ r.Region ∈ rs1 := by
    intro r hrm
    have := (List.mem_filter.mp hrm).2
    simpa [List.elem_iff] using this
  have h1 : data_filtered (data_filtered data qs1 rs1) qs2 rs2
      = data_filtered data qs1 rs1 := by
    apply List.filter_eq_self.mpr
    intro r hrm
    have hm := hmem r hrm
    simp [List.elem_iff]
    exact ⟨hq hm.1, hr hm.2⟩
  have hmem2 : ∀ r ∈ region_filtered_data data qs1 rs1 ss1,
      r.Sales_Quarter ∈ qs1 ∧ r.Region ∈ rs1 ∧ r.Deal_Stage ∈ ss1 := by
    intro r hrm
    have h2 := (List.mem_filter.mp hrm).2
    have h1m := hmem r (List.mem_filter.mp hrm).1
    refine ⟨h1m.1, h1m.2, ?_⟩
    simpa [List.elem_iff] using h2
  refine ⟨h1, ?_⟩
  have hdf2 : data_filtered (region_filtered_data data qs1 rs1 ss1) qs2 rs2
      = region_filtered_data data qs1 rs1 ss1 := by
    apply List.filter_eq_self.mpr
    intro r hrm
    have hm := hmem2 r hrm
    simp [List.elem_iff]
    exact ⟨hq hm.1, hr hm.2.1⟩
  have hstep : region_filtered_data (region_filtered_data data qs1 rs1 ss1) qs2 rs2 ss2
      = (data_filtered (region_filtered_data data qs1 rs1 ss1) qs2 rs2).filter
          (fun r => ss2.contains r.Deal_Stage) := rfl
  rw [hstep, hdf2]
  apply List.filter_eq_self.mpr
  intro r hrm
  have hm := hmem2 r hrm
  simp [List.elem_iff]
  exact hs hm.2.2

/-- C3: `win_rate` is `closed_won / total_deals × 100` on a non-empty view and
`0` on an empty one; it always lies in `[0, 100]`; its denominator is the full
filtered row count and its numerator the `Closed-Won` row count. -/
theorem win_rate_spec (v : List Row) :
    (total_deals v > 0 →
      win_rate v = ((closed_won v : ℚ) / (total_deals v : ℚ)) * 100)
    ∧ (v = [] → win_rate v = 0)
    ∧ 0 ≤ win_rate v ∧ win_rate v ≤ 100
    ∧ total_deals v = v.length
    ∧ closed_won v
        = (v.filter (fun r => decide (r.Deal_Stage = "Closed-Won"))).length := by
  have hle : closed_won v ≤ total_deals v := List.length_filter_le _ _
  refine ⟨?_, ?_, ?_, ?_, rfl, rfl⟩
  · intro h
    rw [win_rate, if_pos h]
  · rintro rfl
    rfl
  · rw [win_rate]
    split
    · positivity
    · exact le_refl 0
  · rw [win_rate]
    split
    · rename_i h
      have ht : (0 : ℚ) < (total_deals v : ℚ) := by exact_mod_cast h
      have hdiv : ((closed_won v : ℚ) / (total_deals v : ℚ)) ≤ 1 :=
        div_le_one_of_le₀ (by exact_mod_cast hle) (le_of_lt ht)
      have := mul_le_mul_of_nonneg_right hdiv (by norm_num : (0 : ℚ) ≤ 100)
      simpa using this
    · norm_num

theorem win_rate_spec_witness :
    total_deals sampleData > 0
    ∧ win_rate sampleData
        = ((closed_won sampleData : ℚ) / (total_deals sampleData : ℚ)) * 100 :=
  ⟨by decide, (win_rate_spec sampleData).1 (by decide)⟩

theorem colMean_eq_present_mean (f : Row → Option ℚ) (v : List Row) :
    colMean f v
      = (if v.filter (fun r => (f r).isSome) = [] then none
         else some (((v.filter (fun r => (f r).isSome)).map
              (fun r => (f r).getD 0)).sum
            / ((v.filter (fun r => (f r).isSome)).length : ℚ))) := by
  rw [colMean, filterMap_eq_filter_map f 0]
  by_cases hp : v.filter (fun r => (f r).isSome) = [] <;> simp [hp]

theorem colMean_none_iff (f : Row → Option ℚ) (v : List Row) :
    colMean f v = none ↔ v.filter (fun r => (f r).isSome) = [] := by
  rw [colMean_eq_present_mean]
  by_cases hp : v.filter (fun r => (f r).isSome) = [] <;> simp [hp]

theorem colMean_append_none (f : Row → Option ℚ) (v : List Row) (r : Row)
    (h : f r = none) : colMean f (v ++ [r]) = colMean f v := by
  rw [colMean, colMean, List.filterMap_append]
  simp [List.filterMap_cons, h]

/-- C4: the three sum metrics are `0` on an empty view, while each mean metric
equals the mean of its column over exactly the rows where the value is
present, is the "not available" marker (`none`) precisely when no value is
present, and ignores rows whose optional value is missing rather than
counting them as zero. -/
theorem empty_and_missing_policy (v : List Row) :
    total_pipeline_value [] = 0 ∧ total_closed_won [] = 0 ∧ total_closed_lost [] = 0
    ∧ (avg_time_to_close v = none
        ↔ v.filter (fun r => (r.Time_to_Close_Days).isSome) = [])
    ∧ (avg_csat v = none
        ↔ v.filter (fun r => (r.Customer_Satisfaction_Score).isSome) = [])
    ∧ (avg_engagement v = none
        ↔ v.filter (fun r => (r.Engagement_Score).isSome) = [])
    ∧ avg_time_to_close v
        = (if v.filter (fun r => (r.Time_to_Close_Days).isSome) = [] then none
           else some (((v.filter (fun r => (r.Time_to_Close_Days).isSome)).map
                (fun r => (r.Time_to_Close_Days).getD 0)).sum
              / ((v.filter (fun r => (r.Time_to_Close_Days).isSome)).length : ℚ)))
    ∧ avg_csat v
        = (if v.filter (fun r => (r.Customer_Satisfaction_Score).isSome) = [] then none
           else some (((v.filter (fun r => (r.Customer_Satisfaction_Score).isSome)).map
                (fun r => (r.Customer_Satisfaction_Score).getD 0)).sum
              / ((v.filter (fun r => (r.Customer_Satisfaction_Score).isSome)).length : ℚ)))
    ∧ avg_engagement v
        = (if v.filter (fun r => (r.Engagement_Score).isSome) = [] then none
           else some (((v.filter (fun r => (r.Engagement_Score).isSome)).map
                (fun r => (r.Engagement_Score).getD 0)).sum
              / ((v.filter (fun r => (r.Engagement_Score).isSome)).length : ℚ)))
    ∧ (∀ r : Row, r.Time_to_Close_Days = none →
        avg_time_to_close (v ++ [r]) = avg_time_to_close v)
    ∧ (∀ r : Row, r.Customer_Satisfaction_Score = none →
        avg_csat (v ++ [r]) = avg_csat v)
    ∧ (∀ r : Row, r.Engagement_Score = none →
        avg_engagement (v ++ [r]) = avg_engagement v) :=
  ⟨rfl, rfl, rfl,
   colMean_none_iff _ v, colMean_none_iff _ v, colMean_none_iff _ v,
   colMean_eq_present_mean _ v, colMean_eq_present_mean _ v,
   colMean_eq_present_mean _ v,
   fun r h => colMean_append_none _ v r h,
   fun r h => colMean_append_none _ v r h,
   fun r h => colMean_append_none _ v r h⟩

theorem empty_and_missing_policy_witness :
    openRow.Engagement_Score = none
    ∧ avg_engagement ([wonRow] ++ [openRow]) = avg_engagement [wonRow] :=
  ⟨rfl,
   (empty_and_missing_policy [wonRow]).2.2.2.2.2.2.2.2.2.2.2 openRow rfl⟩

theorem tpv_cons (r : Row) (v : List Row) :
    total_pipeline_value (r :: v)
      = (if r.Deal_Stage = "Closed-Won" ∨ r.Deal_Stage = "Closed-Lost" then 0
         else r.Deal_Value_USD) + total_pipeline_value v := by
  rw [total_pipeline_value, total_pipeline_value, List.filter_cons]
  by_cases h : r.Deal_Stage = "Closed-Won" ∨ r.Deal_Stage = "Closed-Lost" <;>
    simp [List.elem_iff, h]

theorem tcw_cons (r : Row) (v : List Row) :
    total_closed_won (r :: v)
      = (if r.Deal_Stage = "Closed-Won" then r.Deal_Value_USD else 0)
        + total_closed_won v := by
  rw [total_closed_won, total_closed_won, List.filter_cons]
  by_cases h : r.Deal_Stage = "Closed-Won" <;> simp [h]

theorem tcl_cons (r : Row) (v : List Row) :
    total_closed_lost (r :: v)
      = (if r.Deal_Stage = "Closed-Lost" then r.Deal_Value_USD else 0)
        + total_closed_lost v := by
  rw [total_closed_lost, total_closed_lost, List.filter_cons]
  by_cases h : r.Deal_Stage = "Closed-Lost" <;> simp [h]

theorem bucket_sum (v : List Row) :
    total_pipeline_value v + total_closed_won v + total_closed_lost v
      = dealValueTotal v := by
  induction v with
  | nil => simp [total_pipeline_value, total_closed_won, total_closed_lost, dealValueTotal]
  | cons r v ih =>
    rw [tpv_cons, tcw_cons, tcl_cons,
      show dealValueTotal (r :: v) = r.Deal_Value_USD + dealValueTotal v from by
        simp [dealValueTotal]]
    by_cases hw : r.Deal_Stage = "Closed-Won" <;>
      by_cases hl : r.Deal_Stage = "Closed-Lost" <;> simp [hw, hl] <;> linarith [ih]

/-- C6: the pipeline, closed-won and closed-lost totals sum to at most the
total deal value of the filtered view, with equality exactly when every row
falls into one of the three buckets — which is always the case, since the
pipeline bucket is the complement of the two closed buckets. -/
theorem bucket_totals (v : List Row) :
    total_pipeline_value v + total_closed_won v + total_closed_lost v
      ≤ dealValueTotal v
    ∧ (total_pipeline_value v + total_closed_won v + total_closed_lost v
          = dealValueTotal v
        ↔ ∀ r ∈ v, r.Deal_Stage ∉ (["Closed-Won", "Closed-Lost"] : List String)
            ∨ r.Deal_Stage = "Closed-Won" ∨ r.Deal_Stage = "Closed-Lost") := by
  refine ⟨le_of_eq (bucket_sum v), ?_, fun _ => bucket_sum v⟩
  intro _ r _
  by_cases hw : r.Deal_Stage = "Closed-Won"
  · exact Or.inr (Or.inl hw)
  · by_cases hl : r.Deal_Stage = "Closed-Lost"
    · exact Or.inr (Or.inr hl)
    · exact Or.inl (by simp [hw, hl])

theorem bucket_totals_witness :
    total_pipeline_value sampleData + total_closed_won sampleData
        + total_closed_lost sampleData = dealValueTotal sampleData :=
  (bucket_totals sampleData).2.mpr (by decide)

theorem filter_idempotent_witness :
    (["Q1-FY25"] : List String) ⊆ ["Q1-FY25", "Q2-FY25"]
    ∧ data_filtered (data_filtered sampleData ["Q1-FY25"] ["EU"])
        ["Q1-FY25", "Q2-FY25"] ["EU", "US"]
      = data_filtered sampleData ["Q1-FY25"] ["EU"] :=
  ⟨by decide,
   (filter_idempotent sampleData ["Q1-FY25"] ["EU"] ["Closed-Won"]
      ["Q1-FY25", "Q2-FY25"] ["EU", "US"] ["Closed-Won", "Negotiation"]
      (by decide) (by decide) (by decide)).1⟩

/-- C5, counterexample: the claimed tie-break rule — groups with equal sums
keep the order in which the grouping produced them — is not guaranteed by the
program.  The sort step promises only `IsSortValuesDescOutput` (pandas
documents its default quicksort kind as not stable), and on the concrete
dataset `tieData`, whose two leaderboard groups have equal sums, BOTH orders
of the two groups satisfy that contract while being distinct lists: the
contract does not determine which equal-sum group comes first, so the claimed
tie-break does not hold as stated. -/
theorem leaderboard_tie_break_counterexample :
    lbGroups tieData
      = [(("S2", "EU"), (100 : ℚ), (100 : ℚ)), (("S1", "EU"), (100 : ℚ), (100 : ℚ))]
    ∧ IsSortValuesDescOutput (fun g => g.2.1) (lbGroups tieData)
        [(("S1", "EU"), (100 : ℚ), (100 : ℚ)), (("S2", "EU"), (100 : ℚ), (100 : ℚ))]
    ∧ IsSortValuesDescOutput (fun g => g.2.1) (lbGroups tieData)
        [(("S2", "EU"), (100 : ℚ), (100 : ℚ)), (("S1", "EU"), (100 : ℚ), (100 : ℚ))]
    ∧ ([(("S1", "EU"), (100 : ℚ), (100 : ℚ)), (("S2", "EU"), (100 : ℚ), (100 : ℚ))]
        : List ((String × String) × ℚ × ℚ))
      ≠ [(("S2", "EU"), (100 : ℚ), (100 : ℚ)), (("S1", "EU"), (100 : ℚ), (100 : ℚ))] := by
  have h1 : closedWonRows tieData = [tieRowA, tieRowB] := by decide
  have h3 : groupKeys lbKey [tieRowA, tieRowB] = [("S2", "EU"), ("S1", "EU")] := by
    decide
  have hA : groupRows lbKey [tieRowA, tieRowB] ("S2", "EU") = [tieRowA] := by decide
  have hB : groupRows lbKey [tieRowA, tieRowB] ("S1", "EU") = [tieRowB] := by decide
  have heval : lbGroups tieData
      = [(("S2", "EU"), (100 : ℚ), (100 : ℚ)), (("S1", "EU"), (100 : ℚ), (100 : ℚ))] := by
    rw [lbGroups, h1, h3]
    simp only [List.map_cons, List.map_nil]
    rw [hA, hB]
    norm_num [dealValueTotal, tieRowA, tieRowB]
  refine ⟨heval, ⟨?_, ?_⟩, ⟨?_, ?_⟩, by decide⟩
  · rw [heval]
    exact List.Perm.swap _ _ _
  · simp
  · rw [heval]
  · simp

/-- C5, amended (the tie-break promise dropped; all else as claimed): for
every output of the sort step that satisfies the contract of
`sort_values(ascending=False)`, the leaderboard — the first 10 rows of that
output — has at most 10 rows, each row's `Total_Closed_Won` at least the
next row's, and its rows drawn from the groups of the `Closed-Won` rows
keyed by `(Salesperson_ID, Region)`, each group carrying the sum and the
mean of `Deal_Value_USD` over exactly its rows; the executable pipeline's
`sortDescBy` is one compliant output and `leaderboard` is its head. -/
theorem leaderboard_amended (v : List Row)
    (out : List ((String × String) × ℚ × ℚ))
    (h : IsSortValuesDescOutput (fun g => g.2.1) (lbGroups v) out) :
    (out.take 10).length ≤ 10
    ∧ (out.take 10).Pairwise (fun a b => b.2.1 ≤ a.2.1)
    ∧ (∀ g ∈ out.take 10, g ∈ lbGroups v)
    ∧ (∀ g ∈ lbGroups v, g ∈ out)
    ∧ (∀ g ∈ lbGroups v,
        g.2.1 = dealValueTotal (groupRows lbKey (closedWonRows v) g.1)
        ∧ g.2.2 = dealValueTotal (groupRows lbKey (closedWonRows v) g.1)
            / ((groupRows lbKey (closedWonRows v) g.1).length : ℚ))
    ∧ (lbGroups v).map Prod.fst = groupKeys lbKey (closedWonRows v)
    ∧ IsSortValuesDescOutput (fun g => g.2.1) (lbGroups v)
        (sortDescBy (fun g => g.2.1) (lbGroups v))
    ∧ leaderboard v = (sortDescBy (fun g => g.2.1) (lbGroups v)).take 10 := by
  refine ⟨List.length_take_le _ _,
    List.Pairwise.sublist (List.take_sublist _ _) h.2, ?_, ?_, ?_, ?_,
    sortDescBy_compliant _ _, rfl⟩
  · intro g hg
    exact h.1.mem_iff.mpr ((List.take_sublist _ _).subset hg)
  · intro g hg
    exact h.1.mem_iff.mp hg
  · intro g hg
    rcases List.mem_map.mp hg with ⟨k, _, rfl⟩
    exact ⟨rfl, rfl⟩
  · rw [lbGroups, List.map_map]
    simp [Function.comp_def]

theorem leaderboard_amended_witness :
    IsSortValuesDescOutput (fun g => g.2.1) (lbGroups sampleData)
        (sortDescBy (fun g => g.2.1) (lbGroups sampleData))
    ∧ ((sortDescBy (fun g => g.2.1) (lbGroups sampleData)).take 10).Pairwise
        (fun a b => b.2.1 ≤ a.2.1) :=
  ⟨sortDescBy_compliant _ _,
   (leaderboard_amended sampleData _ (sortDescBy_compliant _ _)).2.1⟩

/-- C8: for each grouped roll-up — region × product-category revenue, the
leaderboard group totals, the closed-won category revenue, and the
lead-source × deal-stage pipeline — the per-group `Deal_Value_USD` totals sum
to the ungrouped total over the row population that was grouped. -/
theorem grouped_sum_eq_total (data : List Row) (qs rs ss : List String)
    (v : List Row) :
    ((region_category_revenue data qs rs ss).map Prod.snd).sum
        = dealValueTotal (region_filtered_data data qs rs ss)
    ∧ ((lbGroups v).map (fun g => g.2.1)).sum = dealValueTotal (closedWonRows v)
    ∧ ((category_revenue v).map Prod.snd).sum = dealValueTotal (closedWonRows v)
    ∧ ((lead_source_data v).map Prod.snd).sum = dealValueTotal v := by
  have core : ∀ {κ : Type} [DecidableEq κ] (key : Row → κ) (w : List Row),
      ((groupbySum key w).map Prod.snd).sum = dealValueTotal w := by
    intro κ _ key w
    have hcov : ∀ r ∈ w, key r ∈ groupKeys key w := by
      intro r hr
      rw [groupKeys, mem_dedupKeys]
      exact List.mem_map_of_mem key hr
    have h := sum_groups key (groupKeys key w) (nodup_dedupKeys _) w hcov
    rw [groupbySum, List.map_map]
    simpa [Function.comp_def] using h
  refine ⟨?_, ?_, ?_, ?_⟩
  · rw [region_category_revenue]
    exact core _ _
  · have hcov : ∀ r ∈ closedWonRows v, lbKey r ∈ groupKeys lbKey (closedWonRows v) := by
      intro r hr
      rw [groupKeys, mem_dedupKeys]
      exact List.mem_map_of_mem lbKey hr
    have h := sum_groups lbKey (groupKeys lbKey (closedWonRows v))
      (nodup_dedupKeys _) (closedWonRows v) hcov
    rw [lbGroups, List.map_map]
    simpa [Function.comp_def] using h
  · rw [category_revenue]
    exact core _ _
  · rw [lead_source_data]
    exact core _ _

theorem applyOp_preserves_data (s : DashState) (op : Op) :
    (applyOp s op).1.data = s.data := by
  cases op <;> rfl

theorem runOps_preserves_data (ops : List Op) :
    ∀ s : DashState, (runOps s ops).1.data = s.data := by
  induction ops with
  | nil => intro s; rfl
  | cons op ops ih =>
    intro s
    have h : (runOps s (op :: ops)).1 = (runOps (applyOp s op).1 ops).1 := rfl
    rw [h, ih, applyOp_preserves_data]

/-- C9: across every sequence of filter changes and view renderings in a
session, the loaded dataset is never mutated — every step derives new values
and leaves `data` exactly as the load step returned it. -/
theorem dataset_never_mutated (ops : List Op) (s : DashState) :
    (runOps s ops).1.data = s.data
    ∧ ∀ op : Op, (applyOp s op).1.data = s.data :=
  ⟨runOps_preserves_data ops s, fun op => applyOp_preserves_data s op⟩

/-- C10: two runs over the same data with the same quarter and region
selections but different deal-stage selections agree on the key metrics, the
leaderboard, both product-category roll-ups, the lead-source × stage roll-up
and the filtered table; only the region × product-category revenue roll-up
can differ (and does, on a concrete dataset). -/
theorem stage_selection_isolation (data : List Row) (qs rs ss1 ss2 : List String) :
    (runDashboard data qs rs ss1).metrics = (runDashboard data qs rs ss2).metrics
    ∧ (runDashboard data qs rs ss1).leaderboard
        = (runDashboard data qs rs ss2).leaderboard
    ∧ (runDashboard data qs rs ss1).category_revenue
        = (runDashboard data qs rs ss2).category_revenue
    ∧ (runDashboard data qs rs ss1).category_avg_deal
        = (runDashboard data qs rs ss2).category_avg_deal
    ∧ (runDashboard data qs rs ss1).lead_source_data
        = (runDashboard data qs rs ss2).lead_source_data
    ∧ (runDashboard data qs rs ss1).data_filtered
        = (runDashboard data qs rs ss2).data_filtered
    ∧ ∃ (d : List Row) (q r s1 s2 : List String),
        (runDashboard d q r s1).region_category_revenue
          ≠ (runDashboard d q r s2).region_category_revenue := by
  refine ⟨rfl, rfl, rfl, rfl, rfl, rfl,
    ⟨sampleData, ["Q1-FY25"], ["EU"], ["Closed-Won"], [], ?_⟩⟩
  decide

end Canonical
